import Mathlib

/-!
Verification of the LangGraph-based agentic cybersecurity workflow
(`agentic_cybersec_pipeline.py`).

The core of the program is `CyberSecurityAgent`: a planner (`plan_jobs`)
that expands a free-text directive into a queue of job dictionaries, a
scheduler step (`perform_task`) that pops one job, runs it through
`run_utility`, logs the output, and conditionally appends a follow-on
gobuster job when an nmap output shows an HTTP port, and a two-node
conditional-edge graph that repeats `perform_task` until the queue is
empty.

The embedding below mirrors the Python source:
  * job dictionaries become the `Job` structure;
  * the `CyberAuditData` state dictionary becomes `AuditData`
    (the read-only `assessment_scope` entry is kept as the separate
    `Scope` parameter since the agent reads it from `self`);
  * Python's `str.lower` / substring `in` become `pyLower` / `pyIn`;
  * the `IndexError` that `domains[0]` raises on an empty list, and the
    `try`/`except` around job execution, become `Except String`;
  * the LangGraph loop becomes `runLoop` with explicit fuel (the graph
    runtime's recursion limit); all results are shown to be reached
    within fuel 3, so the fuel is never the binding constraint.
-/

/-- A job dictionary: `{"utility": ..., "target": ..., "parameters": ...}`. -/
structure Job where
  utility : String
  target : String
  parameters : String
deriving DecidableEq

/-- The `assessment_scope` dictionary: `{"domains": [...], "ips": [...]}`. -/
structure Scope where
  domains : List String
  ips : List String
deriving DecidableEq

/-- The mutable run state threaded through the graph (`CyberAuditData`). -/
structure AuditData where
  directive : String
  job_queue : List Job
  activity_logs : List String
deriving DecidableEq

/-- Does `p` occur at the head of `s`?  (helper for substring search). -/
def strHasPre : List Char → List Char → Bool
  | [], _ => true
  | _ :: _, [] => false
  | p :: ps, c :: cs => p == c && strHasPre ps cs

/-- Does `pat` occur as a contiguous substring of `s`?  Python's `in`. -/
def strHasSub (pat : List Char) : List Char → Bool
  | [] => pat.isEmpty
  | c :: cs => strHasPre pat (c :: cs) || strHasSub pat cs

/-- Python `pat in s` where `s` is given as a character list. -/
def pyIn (pat : String) (s : List Char) : Bool := strHasSub pat.toList s

/-- Python `s.lower()` (ASCII case folding suffices for the directives used). -/
def pyLower (s : String) : List Char := s.toList.map Char.toLower

/-- The nmap job built by the first planning rule (lines 53-57). -/
def nmapJob (t : String) : Job :=
  { utility := "nmap", target := t, parameters := "-Pn -p 80,443,22,8080" }

/-- The gobuster job built by the second planning rule (lines 60-64) and by
the branching rule (lines 80-84); both use the identical dictionary literal. -/
def gobusterJob (t : String) : Job :=
  { utility := "gobuster", target := t,
    parameters := "dir -u http://{target} -w /usr/share/wordlists/dirb/common.txt" }

/-- Line 51: `"scan" in directive.lower() and "ports" in directive.lower()`. -/
def scanPortsFires (directive : String) : Bool :=
  pyIn "scan" (pyLower directive) && pyIn "ports" (pyLower directive)

/-- Line 58: `"discover directories" in directive.lower()`. -/
def discoverDirsFires (directive : String) : Bool :=
  pyIn "discover directories" (pyLower directive)

/-- The job list produced by the two planning rules of `plan_jobs`
(lines 51-64).  `assessment_scope["domains"][0]` on an empty `domains`
list raises `IndexError`, modelled as `Except.error`; the first rule is
evaluated first, so its error preempts the second rule. -/
def plannedJobs (scope : Scope) (directive : String) : Except String (List Job) :=
  match (if scanPortsFires directive then
            match scope.domains with
            | [] => Except.error "IndexError: list index out of range"
            | d :: _ => Except.ok ([] ++ [nmapJob d])
          else Except.ok []) with
  | Except.error e => Except.error e
  | Except.ok q1 =>
    if discoverDirsFires directive then
      match scope.domains with
      | [] => Except.error "IndexError: list index out of range"
      | d :: _ => Except.ok (q1 ++ [gobusterJob d])
    else Except.ok q1

/-- `plan_jobs` (lines 47-66): only acts when the queue is empty. -/
def plan_jobs (scope : Scope) (data : AuditData) : Except String AuditData :=
  if data.job_queue.isEmpty then
    match plannedJobs scope data.directive with
    | Except.error e => Except.error e
    | Except.ok q => Except.ok { data with job_queue := q }
  else Except.ok data

/-- `simulate_nmap_scan` (lines 108-120). -/
def simulate_nmap_scan (target : String) : String :=
  String.intercalate "\n"
    [ "Starting Nmap scan on " ++ target ++ "...",
      "Scanning ports: 80, 443, 22, 8080",
      "Discovered open ports:",
      "80/tcp  - HTTP",
      "443/tcp - HTTPS",
      "22/tcp  - SSH",
      "8080/tcp - HTTP-Alt",
      "Nmap scan completed." ]

/-- `simulate_gobuster_scan` (lines 122-133). -/
def simulate_gobuster_scan (target : String) : String :=
  String.intercalate "\n"
    [ "Starting Gobuster scan on " ++ target ++ "...",
      "Found directories:",
      "/admin",
      "/login",
      "/images",
      "/assets",
      "Gobuster scan completed." ]

/-- `run_utility` (lines 90-106).  `parameters.format(target=target)` is
`String.replace` on the `\x7btarget\x7d` placeholder; the result feeds only
the fallback output for unknown utilities. -/
def run_utility (job : Job) : String :=
  let parameters := job.parameters.replace "{target}" job.target
  if job.utility == "nmap" then simulate_nmap_scan job.target
  else if job.utility == "gobuster" then simulate_gobuster_scan job.target
  else "Simulated output for " ++ job.utility ++ " on " ++ job.target ++
       " with parameters " ++ parameters

/-- The simulated executor of the source: `run_utility` never raises. -/
def simExec : Job → Except String String := fun j => Except.ok (run_utility j)

/-- An always-failing executor, exercising the `except` branch of
`perform_task` (the source's `try` may fail on a real utility). -/
def failExec : Job → Except String String := fun _ => Except.error "boom"

/-- Python's f-string rendering of a job dictionary, used in the failure
log entry `f"Task failed: \x7bcurrent_task\x7d - \x7bstr(e)\x7d"`. -/
def jobRepr (j : Job) : String :=
  "\x7b\x27utility\x27: \x27" ++ j.utility ++ "\x27, \x27target\x27: \x27" ++
    j.target ++ "\x27, \x27parameters\x27: \x27" ++ j.parameters ++ "\x27\x7d"

/-- `perform_task` (lines 68-88), parameterised by the executor so that
failure behaviour (the `except` branch) can be analysed: the pop happens
before the `try`, success appends the output and may enqueue the branch
job, failure appends the synthesized failure entry. -/
def perform_task (exec : Job → Except String String) (data : AuditData) : AuditData :=
  match data.job_queue with
  | [] => data
  | current_task :: rest =>
    match exec current_task with
    | Except.ok output =>
      let data1 : AuditData :=
        { data with job_queue := rest, activity_logs := data.activity_logs ++ [output] }
      if current_task.utility == "nmap" &&
          (pyIn "80/tcp" output.toList || pyIn "443/tcp" output.toList) then
        { data1 with job_queue := data1.job_queue ++ [gobusterJob current_task.target] }
      else data1
    | Except.error e =>
      let failEntry := "Task failed: " ++ jobRepr current_task ++ " - " ++ e
      { data with job_queue := rest, activity_logs := data.activity_logs ++ [failEntry] }

/-- The log entry one execution of `j` contributes (success output, or the
synthesized failure entry). -/
def entryOf (exec : Job → Except String String) (j : Job) : String :=
  match exec j with
  | Except.ok out => out
  | Except.error e => "Task failed: " ++ jobRepr j ++ " - " ++ e

/-- The `process` loop of the compiled graph (`determine_next`, lines 36-42):
repeat `perform_task` while the queue is non-empty.  `fuel` stands for the
graph runtime's recursion limit; fuel 3 is proved sufficient below. -/
def runLoop (exec : Job → Except String String) : Nat → AuditData → AuditData
  | 0, data => data
  | fuel + 1, data =>
    match data.job_queue with
    | [] => data
    | _ :: _ => runLoop exec fuel (perform_task exec data)

/-- The initial state built by `run` (line 137). -/
def initData (directive : String) : AuditData :=
  { directive := directive, job_queue := [], activity_logs := [] }

/-- `run` (lines 135-138): plan once from the fresh state, then loop. -/
def run (scope : Scope) (exec : Job → Except String String) (directive : String)
    (fuel : Nat) : Except String AuditData :=
  match plan_jobs scope (initData directive) with
  | Except.error e => Except.error e
  | Except.ok d => Except.ok (runLoop exec fuel d)

/-- The jobs popped and executed, in execution order, within `fuel` steps. -/
def executedJobs (exec : Job → Except String String) : Nat → AuditData → List Job
  | 0, _ => []
  | fuel + 1, data =>
    match data.job_queue with
    | [] => []
    | j :: _ => j :: executedJobs exec fuel (perform_task exec data)

/-- `n`-fold iteration of the scheduler step, covering every state the
run loop can reach from a given state (on an empty queue the step is the
identity). -/
def stepN (exec : Job → Except String String) : Nat → AuditData → AuditData
  | 0, d => d
  | n + 1, d => stepN exec n (perform_task exec d)

/-- Termination measure: queue length plus the number of queued nmap jobs
(an nmap pop may enqueue one gobuster job, so plain length need not drop). -/
def measureQ (q : List Job) : Nat :=
  q.length + (q.filter (fun j => j.utility == "nmap")).length

example : scanPortsFires "Scan example.com for open ports" = true := by decide
example : discoverDirsFires "please DISCOVER Directories now" = true := by decide
example : pyIn "80/tcp" (simulate_nmap_scan "example.com").toList = true := by decide
example : pyIn "80/tcp" (simulate_gobuster_scan "example.com").toList = false := by decide
example :
    plannedJobs ⟨["example.com"], []⟩ "scan ports and discover directories" =
      Except.ok [nmapJob "example.com", gobusterJob "example.com"] := rfl
example :
    plannedJobs ⟨[], []⟩ "scan ports" =
      Except.error "IndexError: list index out of range" := rfl

/-! ## Helper lemmas about one scheduler step -/

theorem runLoop_of_nil (exec : Job → Except String String) (fuel : Nat) (data : AuditData)
    (h : data.job_queue = []) : runLoop exec fuel data = data := by
  cases fuel with
  | zero => rfl
  | succ n => simp [runLoop, h]

theorem perform_task_cons (exec : Job → Except String String)
    (dir : String) (j : Job) (rest : List Job) (logs : List String) :
    perform_task exec ⟨dir, j :: rest, logs⟩ =
      match exec j with
      | Except.ok out =>
        if j.utility == "nmap" && (pyIn "80/tcp" out.toList || pyIn "443/tcp" out.toList)
        then ⟨dir, rest ++ [gobusterJob j.target], logs ++ [out]⟩
        else ⟨dir, rest, logs ++ [out]⟩
      | Except.error e => ⟨dir, rest, logs ++ ["Task failed: " ++ jobRepr j ++ " - " ++ e]⟩ := by
  cases hx : exec j with
  | ok out =>
    by_cases hc : (j.utility == "nmap" &&
        (pyIn "80/tcp" out.toList || pyIn "443/tcp" out.toList)) = true
    · simp [perform_task, hx, hc]
    · simp [perform_task, hx, hc]
  | error e => simp [perform_task, hx]

theorem perform_task_logs (exec : Job → Except String String) (data : AuditData)
    (j : Job) (rest : List Job) (hq : data.job_queue = j :: rest) :
    (perform_task exec data).activity_logs = data.activity_logs ++ [entryOf exec j] := by
  obtain ⟨dir, q, logs⟩ := data
  have hq2 : q = j :: rest := hq
  subst hq2
  rw [perform_task_cons]
  unfold entryOf
  cases exec j with
  | ok out => dsimp only; split <;> rfl
  | error e => rfl

theorem perform_task_queue_ok (exec : Job → Except String String) (data : AuditData)
    (j : Job) (rest : List Job) (out : String)
    (hq : data.job_queue = j :: rest) (hx : exec j = Except.ok out) :
    (perform_task exec data).job_queue =
      if j.utility == "nmap" && (pyIn "80/tcp" out.toList || pyIn "443/tcp" out.toList)
      then rest ++ [gobusterJob j.target] else rest := by
  obtain ⟨dir, q, logs⟩ := data
  have hq2 : q = j :: rest := hq
  subst hq2
  rw [perform_task_cons, hx]
  dsimp only
  split <;> rfl

theorem perform_task_err (exec : Job → Except String String) (data : AuditData)
    (j : Job) (rest : List Job) (e : String)
    (hq : data.job_queue = j :: rest) (hx : exec j = Except.error e) :
    (perform_task exec data).job_queue = rest ∧
    (perform_task exec data).activity_logs =
      data.activity_logs ++ ["Task failed: " ++ jobRepr j ++ " - " ++ e] := by
  obtain ⟨dir, q, logs⟩ := data
  have hq2 : q = j :: rest := hq
  subst hq2
  rw [perform_task_cons, hx]
  exact ⟨rfl, rfl⟩

/-! ## Helper lemmas about planning -/

theorem plan_jobs_initData_eq (scope : Scope) (directive : String) (q : List Job)
    (hp : plannedJobs scope directive = Except.ok q) :
    plan_jobs scope (initData directive) =
      Except.ok { directive := directive, job_queue := q, activity_logs := [] } := by
  unfold plan_jobs initData
  simp [hp]

theorem plan_jobs_initData_inv (scope : Scope) (directive : String) (d0 : AuditData)
    (h : plan_jobs scope (initData directive) = Except.ok d0) :
    plannedJobs scope directive = Except.ok d0.job_queue ∧
      d0.directive = directive ∧ d0.activity_logs = [] := by
  unfold plan_jobs initData at h
  cases hp : plannedJobs scope directive with
  | error e => rw [hp] at h; simp at h
  | ok q =>
    rw [hp] at h
    simp at h
    rw [← h]
    exact ⟨rfl, rfl, rfl⟩

theorem plannedJobs_shape (scope : Scope) (directive : String) (q : List Job)
    (h : plannedJobs scope directive = Except.ok q) :
    q = [] ∨ ∃ d ds, scope.domains = d :: ds ∧
      (q = [nmapJob d] ∨ q = [gobusterJob d] ∨ q = [nmapJob d, gobusterJob d]) := by
  unfold plannedJobs at h
  cases hsp : scanPortsFires directive <;> cases hdd : discoverDirsFires directive <;>
    cases hdom : scope.domains <;> simp only [hsp, hdd, hdom] at h <;> simp at h
  all_goals first
    | exact Or.inl h
    | exact Or.inl h.symm
    | exact Or.inr ⟨_, _, rfl, by simp [h]⟩

/-! ## Claim C2 -/

/-- C2: for an executed job whose executor returns output `out`, a follow-on
gobuster job against the same target is appended to the back of the queue
exactly when the job's utility is `"nmap"` and `out` contains `"80/tcp"` or
`"443/tcp"` — a single appended job even when both substrings occur; in
every other case the queue is exactly the remaining jobs, with no follow-on
appended. -/
theorem nmap_branch_appends_one_gobuster (exec : Job → Except String String)
    (data : AuditData) (j : Job) (rest : List Job) (out : String)
    (hq : data.job_queue = j :: rest) (hx : exec j = Except.ok out) :
    (perform_task exec data).job_queue =
      if j.utility == "nmap" && (pyIn "80/tcp" out.toList || pyIn "443/tcp" out.toList)
      then rest ++ [gobusterJob j.target] else rest :=
  perform_task_queue_ok exec data j rest out hq hx

/-- C2 witness: the simulated nmap scan reports both 80/tcp and 443/tcp, and
exactly one gobuster job against the same target is appended. -/
theorem nmap_branch_appends_one_gobuster_witness :
    (perform_task simExec
        { directive := "d", job_queue := [nmapJob "example.com"], activity_logs := [] }).job_queue =
      [gobusterJob "example.com"] := by
  rw [nmap_branch_appends_one_gobuster simExec
      { directive := "d", job_queue := [nmapJob "example.com"], activity_logs := [] }
      (nmapJob "example.com") [] (run_utility (nmapJob "example.com")) rfl rfl]
  decide

/-! ## Claim C3 -/

/-- C3: a job whose executor fails does not abort the run: the step appends
exactly one entry of the form `"Task failed: <job> - <reason>"` to the
activity log, and the queue becomes exactly the remaining jobs (the failure
branch enqueues nothing), so the scheduler proceeds with the next queued
job. -/
theorem failure_logged_run_continues (exec : Job → Except String String)
    (data : AuditData) (j : Job) (rest : List Job) (e : String)
    (hq : data.job_queue = j :: rest) (hx : exec j = Except.error e) :
    (perform_task exec data).activity_logs =
      data.activity_logs ++ ["Task failed: " ++ jobRepr j ++ " - " ++ e] ∧
    (perform_task exec data).job_queue = rest := by
  obtain ⟨h1, h2⟩ := perform_task_err exec data j rest e hq hx
  exact ⟨h2, h1⟩

/-- C3 witness: a failing execution of the planned nmap job logs one failure
entry and leaves the queue empty. -/
theorem failure_logged_run_continues_witness :
    (perform_task failExec
        { directive := "d", job_queue := [nmapJob "example.com"], activity_logs := [] }).activity_logs =
      [] ++ ["Task failed: " ++ jobRepr (nmapJob "example.com") ++ " - " ++ "boom"] ∧
    (perform_task failExec
        { directive := "d", job_queue := [nmapJob "example.com"], activity_logs := [] }).job_queue = [] :=
  failure_logged_run_continues failExec
    { directive := "d", job_queue := [nmapJob "example.com"], activity_logs := [] }
    (nmapJob "example.com") [] "boom" rfl rfl

/-! ## Claim C1 -/

/-- C1 counterexample: the claim says that with empty `scope.domains` a
firing rule is silently skipped and `plan` returns normally; in the source,
`assessment_scope["domains"][0]` raises `IndexError`, so `plan_jobs` on the
directive `"scan ports"` with no domains errors instead of returning. -/
theorem plan_silent_noop_counterexample :
    plan_jobs ⟨[], []⟩ (initData "scan ports") =
      Except.error "IndexError: list index out of range" ∧
    plan_jobs ⟨[], []⟩ (initData "scan ports") ≠ Except.ok (initData "scan ports") := by
  have h0 : plan_jobs ⟨[], []⟩ (initData "scan ports") =
      Except.error "IndexError: list index out of range" := rfl
  refine ⟨h0, fun hcontra => ?_⟩
  rw [h0] at hcontra
  exact Except.noConfusion hcontra

/-- C1 amended: for every directive that triggers a planning rule needing a
target, if `scope.domains` is empty then `plan_jobs` raises an
index-out-of-range error (it emits no job, but the planning step is an
error, not a silent no-op). -/
theorem plan_errors_on_empty_domains (scope : Scope) (data : AuditData)
    (hdom : scope.domains = []) (hq : data.job_queue = [])
    (hfire : scanPortsFires data.directive = true ∨ discoverDirsFires data.directive = true) :
    plan_jobs scope data = Except.error "IndexError: list index out of range" := by
  unfold plan_jobs plannedJobs
  rw [hq, hdom]
  rcases hfire with h | h
  · simp [h]
  · cases hsp : scanPortsFires data.directive <;> simp [h, hsp]

/-- C1 witness: the directory-discovery rule fires with no domains in scope
and planning raises the index error. -/
theorem plan_errors_on_empty_domains_witness :
    plan_jobs ⟨[], []⟩ (initData "discover directories please") =
      Except.error "IndexError: list index out of range" :=
  plan_errors_on_empty_domains ⟨[], []⟩ (initData "discover directories please") rfl rfl
    (Or.inr rfl)

/-! ## Claim C5 -/

/-- C5: whenever the lowercased directive contains both `"scan"` and
`"ports"` (that is exactly what `scanPortsFires` tests, case-insensitive
substring matching) and the scope has a non-empty domain list, planning
emits exactly one nmap job — it targets `domains[0]` and carries the fixed
default-port parameter template — independently of whether the other rule
also fires. -/
theorem plan_scan_ports_exactly_one_nmap (directive d : String) (ds ips : List String)
    (hfire : scanPortsFires directive = true) :
    ∃ data, plan_jobs ⟨d :: ds, ips⟩ (initData directive) = Except.ok data ∧
      data.job_queue.filter (fun j => j.utility == "nmap") = [nmapJob d] ∧
      (nmapJob d).utility = "nmap" ∧ (nmapJob d).target = d ∧
      (nmapJob d).parameters = "-Pn -p 80,443,22,8080" := by
  cases hdd : discoverDirsFires directive with
  | false =>
    have hp : plannedJobs ⟨d :: ds, ips⟩ directive = Except.ok [nmapJob d] := by
      unfold plannedJobs
      simp [hfire, hdd]
    exact ⟨_, plan_jobs_initData_eq _ _ _ hp, by simp [nmapJob], rfl, rfl, rfl⟩
  | true =>
    have hp : plannedJobs ⟨d :: ds, ips⟩ directive = Except.ok [nmapJob d, gobusterJob d] := by
      unfold plannedJobs
      simp [hfire, hdd]
    exact ⟨_, plan_jobs_initData_eq _ _ _ hp, by simp [nmapJob, gobusterJob], rfl, rfl, rfl⟩

/-- C5 witness: an upper-case directive fires the rule and the planned queue
filtered to nmap jobs is exactly the one default-port job. -/
theorem plan_scan_ports_exactly_one_nmap_witness :
    ∃ data, plan_jobs ⟨["example.com"], []⟩ (initData "SCAN the open PORTS") = Except.ok data ∧
      data.job_queue.filter (fun j => j.utility == "nmap") = [nmapJob "example.com"] ∧
      (nmapJob "example.com").utility = "nmap" ∧ (nmapJob "example.com").target = "example.com" ∧
      (nmapJob "example.com").parameters = "-Pn -p 80,443,22,8080" :=
  plan_scan_ports_exactly_one_nmap "SCAN the open PORTS" "example.com" [] [] rfl

/-! ## Claim C6 -/

/-- C6: if the directive triggers neither planning rule, planning returns
an empty queue and the run goes straight to the terminal state: the final
state has an empty queue and an empty activity log, for every executor and
every fuel. -/
theorem no_rule_fires_empty_run (scope : Scope) (exec : Job → Except String String)
    (directive : String) (fuel : Nat)
    (h1 : scanPortsFires directive = false) (h2 : discoverDirsFires directive = false) :
    ∃ final, run scope exec directive fuel = Except.ok final ∧
      final.job_queue = [] ∧ final.activity_logs = [] := by
  have hp : plannedJobs scope directive = Except.ok [] := by
    unfold plannedJobs
    simp [h1, h2]
  have hplan := plan_jobs_initData_eq scope directive [] hp
  refine ⟨{ directive := directive, job_queue := [], activity_logs := [] }, ?_, rfl, rfl⟩
  unfold run
  rw [hplan]
  dsimp only
  rw [runLoop_of_nil exec fuel _ rfl]

/-- C6 witness: a directive matching no rule yields a completed run with an
empty log. -/
theorem no_rule_fires_empty_run_witness :
    ∃ final, run ⟨["example.com"], []⟩ simExec "enumerate subdomains" 25 = Except.ok final ∧
      final.job_queue = [] ∧ final.activity_logs = [] :=
  no_rule_fires_empty_run ⟨["example.com"], []⟩ simExec "enumerate subdomains" 25 rfl rfl

/-! ## Claim C9 -/

/-- C9: planning is deterministic and stateless — on any two empty-queue
states carrying the same directive (whatever their logs), `plan_jobs` with
the same scope produces the same job queue. -/
theorem plan_pure_deterministic (scope : Scope) (s1 s2 : AuditData)
    (hd : s1.directive = s2.directive)
    (h1 : s1.job_queue = []) (h2 : s2.job_queue = []) :
    Except.map AuditData.job_queue (plan_jobs scope s1) =
      Except.map AuditData.job_queue (plan_jobs scope s2) := by
  obtain ⟨dir1, q1, logs1⟩ := s1
  obtain ⟨dir2, q2, logs2⟩ := s2
  have h1q : q1 = [] := h1
  have h2q : q2 = [] := h2
  have hdq : dir1 = dir2 := hd
  subst h1q; subst h2q; subst hdq
  unfold plan_jobs
  cases hp : plannedJobs scope dir1 with
  | error e => simp [hp, Except.map]
  | ok q => simp [hp, Except.map]

/-- C9 witness: two fresh empty-queue states differing only in their logs
plan the same queue. -/
theorem plan_pure_deterministic_witness :
    Except.map AuditData.job_queue
        (plan_jobs ⟨["example.com"], []⟩
          { directive := "scan ports", job_queue := [], activity_logs := [] }) =
      Except.map AuditData.job_queue
        (plan_jobs ⟨["example.com"], []⟩
          { directive := "scan ports", job_queue := [], activity_logs := ["old log"] }) :=
  plan_pure_deterministic ⟨["example.com"], []⟩ _ _ rfl rfl rfl

/-! ## Claim C4 -/

/-- C4: the run's activity log is append-only and is exactly the execution
trace — after any number of loop steps the log equals the starting log
(never reordered, removed or truncated) followed by one entry per executed
job (success output or failure entry), in execution order; hence the final
log length equals the number of jobs popped and executed. -/
theorem log_is_execution_trace (exec : Job → Except String String) (fuel : Nat)
    (data : AuditData) :
    (runLoop exec fuel data).activity_logs =
      data.activity_logs ++ (executedJobs exec fuel data).map (entryOf exec) := by
  induction fuel generalizing data with
  | zero => simp [runLoop, executedJobs]
  | succ n ih =>
    cases hq : data.job_queue with
    | nil => simp [runLoop, executedJobs, hq]
    | cons j rest =>
      have hstep := perform_task_logs exec data j rest hq
      calc (runLoop exec (n + 1) data).activity_logs
          = (runLoop exec n (perform_task exec data)).activity_logs := by
            simp [runLoop, hq]
        _ = (perform_task exec data).activity_logs ++
              (executedJobs exec n (perform_task exec data)).map (entryOf exec) :=
            ih (perform_task exec data)
        _ = data.activity_logs ++
              ((j :: executedJobs exec n (perform_task exec data)).map (entryOf exec)) := by
            rw [hstep]; simp
        _ = data.activity_logs ++ (executedJobs exec (n + 1) data).map (entryOf exec) := by
            simp [executedJobs, hq]

/-! ## Claim C7 -/

/-- C7: the worked scenario.  For the directive
`"Scan example.com for open ports and discover directories"` with scope
domains `["example.com"]`: planning yields the queue
`[nmap(example.com), gobuster(example.com)]`; executing the nmap job (whose
simulated output lists 80/tcp and 443/tcp) leaves the queue
`[gobuster (planned), gobuster (branch-triggered)]`, i.e. exactly one job
appended at the back; and the completed run's activity log is the three
outputs in execution order: nmap, planned gobuster, branch gobuster. -/
theorem scenario_scan_and_discover :
    plan_jobs ⟨["example.com"], []⟩
        (initData "Scan example.com for open ports and discover directories") =
      Except.ok { directive := "Scan example.com for open ports and discover directories",
                  job_queue := [nmapJob "example.com", gobusterJob "example.com"],
                  activity_logs := [] } ∧
    (perform_task simExec
        { directive := "Scan example.com for open ports and discover directories",
          job_queue := [nmapJob "example.com", gobusterJob "example.com"],
          activity_logs := [] }).job_queue =
      [gobusterJob "example.com", gobusterJob "example.com"] ∧
    Except.map AuditData.activity_logs
        (run ⟨["example.com"], []⟩ simExec
          "Scan example.com for open ports and discover directories" 25) =
      Except.ok [simulate_nmap_scan "example.com", simulate_gobuster_scan "example.com",
                 simulate_gobuster_scan "example.com"] :=
  ⟨rfl, rfl, rfl⟩

/-! ## Measure lemmas (termination) -/

theorem measureQ_lt_cons (j : Job) (rest : List Job) :
    measureQ rest < measureQ (j :: rest) := by
  unfold measureQ
  by_cases hpj : (j.utility == "nmap") = true
  · simp [List.filter_cons, hpj]
    omega
  · simp [List.filter_cons, hpj]

theorem perform_task_measure (exec : Job → Except String String) (data : AuditData)
    (j : Job) (rest : List Job) (hq : data.job_queue = j :: rest) :
    measureQ (perform_task exec data).job_queue < measureQ data.job_queue := by
  obtain ⟨dir, q, logs⟩ := data
  have hq2 : q = j :: rest := hq
  subst hq2
  rw [perform_task_cons]
  cases exec j with
  | ok out =>
    dsimp only
    by_cases hb : (j.utility == "nmap" &&
        (pyIn "80/tcp" out.toList || pyIn "443/tcp" out.toList)) = true
    · rw [if_pos hb]
      have hb2 := hb
      rw [Bool.and_eq_true] at hb2
      have hnm : (j.utility == "nmap") = true := hb2.1
      have hg : ((gobusterJob j.target).utility == "nmap") = false := rfl
      show measureQ (rest ++ [gobusterJob j.target]) < measureQ (j :: rest)
      simp [measureQ, List.filter_append, List.filter_cons, hnm, hg]
    · rw [if_neg hb]
      exact measureQ_lt_cons j rest
  | error e => exact measureQ_lt_cons j rest

theorem runLoop_terminates (exec : Job → Except String String) (fuel : Nat)
    (data : AuditData) (h : measureQ data.job_queue ≤ fuel) :
    (runLoop exec fuel data).job_queue = [] := by
  induction fuel generalizing data with
  | zero =>
    have hlen : data.job_queue.length = 0 := by
      unfold measureQ at h; omega
    exact List.length_eq_zero.mp hlen
  | succ n ih =>
    cases hq : data.job_queue with
    | nil => simp [runLoop, hq]
    | cons j rest =>
      have hstep : runLoop exec (n + 1) data = runLoop exec n (perform_task exec data) := by
        simp [runLoop, hq]
      rw [hstep]
      apply ih
      have hlt := perform_task_measure exec data j rest hq
      omega

theorem executedJobs_length_le (exec : Job → Except String String) (fuel : Nat)
    (data : AuditData) :
    (executedJobs exec fuel data).length ≤ measureQ data.job_queue := by
  induction fuel generalizing data with
  | zero => simp [executedJobs]
  | succ n ih =>
    cases hq : data.job_queue with
    | nil => simp [executedJobs, hq]
    | cons j rest =>
      have hstep : executedJobs exec (n + 1) data =
          j :: executedJobs exec n (perform_task exec data) := by
        simp [executedJobs, hq]
      rw [hstep]
      have hlt := perform_task_measure exec data j rest hq
      rw [hq] at hlt
      have hih := ih (perform_task exec data)
      simp only [List.length_cons]
      omega

theorem plan_measure_le_three (scope : Scope) (directive : String) (d0 : AuditData)
    (h : plan_jobs scope (initData directive) = Except.ok d0) :
    measureQ d0.job_queue ≤ 3 := by
  obtain ⟨hp, -, -⟩ := plan_jobs_initData_inv scope directive d0 h
  rcases plannedJobs_shape scope directive _ hp with hq | ⟨d, ds, -, hq | hq | hq⟩ <;> rw [hq]
  · decide
  · have h2 : measureQ [nmapJob d] = 2 := rfl
    omega
  · have h2 : measureQ [gobusterJob d] = 1 := rfl
    omega
  · have h2 : measureQ [nmapJob d, gobusterJob d] = 3 := rfl
    omega

/-! ## Claim C8 -/

theorem perform_task_targets (exec : Job → Except String String) (dom : List String)
    (data : AuditData) (h : ∀ j ∈ data.job_queue, j.target ∈ dom) :
    ∀ j ∈ (perform_task exec data).job_queue, j.target ∈ dom := by
  obtain ⟨dir, q, logs⟩ := data
  cases q with
  | nil => exact h
  | cons c rest =>
    have hc : c.target ∈ dom := h c (List.mem_cons_self c rest)
    have hrest : ∀ j ∈ rest, j.target ∈ dom := fun j hj => h j (List.mem_cons_of_mem c hj)
    rw [perform_task_cons]
    cases exec c with
    | ok out =>
      dsimp only
      by_cases hb : (c.utility == "nmap" &&
          (pyIn "80/tcp" out.toList || pyIn "443/tcp" out.toList)) = true
      · simp only [if_pos hb]
        intro j hj
        rcases List.mem_append.mp hj with hj2 | hj2
        · exact hrest j hj2
        · rcases List.mem_singleton.mp hj2 with rfl
          exact hc
      · simp only [if_neg hb]
        exact hrest
    | error e => exact hrest

theorem stepN_targets (exec : Job → Except String String) (dom : List String)
    (n : Nat) (data : AuditData) (h : ∀ j ∈ data.job_queue, j.target ∈ dom) :
    ∀ j ∈ (stepN exec n data).job_queue, j.target ∈ dom := by
  induction n generalizing data with
  | zero => exact h
  | succ m ih => exact ih (perform_task exec data) (perform_task_targets exec dom data h)

theorem plannedJobs_targets (scope : Scope) (directive : String) (q : List Job)
    (h : plannedJobs scope directive = Except.ok q) :
    ∀ j ∈ q, j.target ∈ scope.domains := by
  rcases plannedJobs_shape scope directive q h with rfl | ⟨d, ds, hdom, hsh⟩
  · intro j hj
    cases hj
  · have hd : d ∈ scope.domains := by rw [hdom]; exact List.mem_cons_self d ds
    rcases hsh with rfl | rfl | rfl <;> intro j hj <;> simp at hj
    · rcases hj with rfl
      exact hd
    · rcases hj with rfl
      exact hd
    · rcases hj with rfl | rfl
      · exact hd
      · exact hd

/-- C8: every job that is ever in the queue of any state reachable from a
planned run start — whether put there by planning or appended by the
branching rule, under any executor — has its target drawn from the scope's
domain list. -/
theorem jobs_always_in_scope (scope : Scope) (exec : Job → Except String String)
    (directive : String) (d0 : AuditData) (n : Nat)
    (h : plan_jobs scope (initData directive) = Except.ok d0) :
    ∀ j ∈ (stepN exec n d0).job_queue, j.target ∈ scope.domains := by
  obtain ⟨hp, -, -⟩ := plan_jobs_initData_inv scope directive d0 h
  exact stepN_targets exec scope.domains n d0 (plannedJobs_targets scope directive _ hp)

/-- C8 witness: after planning and one execution step the branch-added
gobuster job is in the queue and its target is the declared domain. -/
theorem jobs_always_in_scope_witness :
    (gobusterJob "example.com").target ∈ (⟨["example.com"], []⟩ : Scope).domains :=
  jobs_always_in_scope ⟨["example.com"], []⟩ simExec "scan ports and discover directories"
    { directive := "scan ports and discover directories",
      job_queue := [nmapJob "example.com", gobusterJob "example.com"],
      activity_logs := [] } 1 rfl (gobusterJob "example.com") (by decide)

/-! ## Claim C10 -/

/-- C10: every run terminates after at most three executed jobs: from any
successfully planned start state and for any executor, at most 3 jobs are
ever popped and executed (whatever the fuel), and 3 loop steps already
drain the queue, reaching the terminal state. -/
theorem run_executes_at_most_three_jobs (scope : Scope) (exec : Job → Except String String)
    (directive : String) (d0 : AuditData) (fuel : Nat)
    (h : plan_jobs scope (initData directive) = Except.ok d0) :
    (executedJobs exec fuel d0).length ≤ 3 ∧ (runLoop exec 3 d0).job_queue = [] := by
  have hm := plan_measure_le_three scope directive d0 h
  exact ⟨le_trans (executedJobs_length_le exec fuel d0) hm,
         runLoop_terminates exec 3 d0 hm⟩

/-- C10 witness: the full two-rule scenario executes at most three jobs and
is drained after three loop steps. -/
theorem run_executes_at_most_three_jobs_witness :
    (executedJobs simExec 25
        { directive := "Scan example.com for open ports and discover directories",
          job_queue := [nmapJob "example.com", gobusterJob "example.com"],
          activity_logs := [] }).length ≤ 3 ∧
    (runLoop simExec 3
        { directive := "Scan example.com for open ports and discover directories",
          job_queue := [nmapJob "example.com", gobusterJob "example.com"],
          activity_logs := [] }).job_queue = [] :=
  run_executes_at_most_three_jobs ⟨["example.com"], []⟩ simExec
    "Scan example.com for open ports and discover directories"
    { directive := "Scan example.com for open ports and discover directories",
      job_queue := [nmapJob "example.com", gobusterJob "example.com"],
      activity_logs := [] } 25 rfl
